import Mathlib

/-!
Shallow embedding of `src/server.py` (a LibreLinkUp proxy: cache + throttle +
events) for verification of its specification.

Modelling conventions:
* instants (`datetime`) are integers counting seconds; `timedelta(seconds=k)`
  is the integer `k`, `timedelta(hours=h)` is `h * 3600`; `isoformat`
  serialisation is injective, so a serialised instant is kept as the instant;
* Python floats are modelled as exact rationals;
* the upstream client interaction inside the try-block of `latest` is an
  oracle (`Upstream`) saying how that interaction ends on this call;
* raising `HTTPException(code, msg)` is the result `LatestResult.httpError
  code msg`;
* a returned dict is a structured value: the four-key payload dict is
  `Payload`, and the annotated variants (adding `stale`, `throttled_until`,
  `backoff_until` keys) are the corresponding `LatestResult` constructors.
-/

/-- Python `round` on an exact rational: nearest integer, ties to even
(banker's rounding), as used by `round(v * 18)` in `_mmol_to_mgdl`. -/
def pyRound (q : ℚ) : ℤ :=
  if q - ⌊q⌋ < 1/2 then ⌊q⌋
  else if (1 : ℚ)/2 < q - ⌊q⌋ then ⌊q⌋ + 1
  else if ⌊q⌋ % 2 = 0 then ⌊q⌋ else ⌊q⌋ + 1

/-- Function `_mmol_to_mgdl` (src/server.py line 77): `int(round(v * 18))`. -/
def mmol_to_mgdl (v : ℚ) : ℤ := pyRound (v * 18)

/-- A glucose measurement as produced by the upstream client: `value` in
mmol/L, `trend` already projected to its display name (the code reads
`getattr(m.trend, "name", str(m.trend))`), `timestamp` the instant. -/
structure Reading where
  value : ℚ
  trend : String
  timestamp : ℤ
deriving Repr, DecidableEq

/-- The payload dict built on a successful fetch (src/server.py lines
154-159): exactly the four keys `value_mmol_l`, `value_mg_dl`, `trend`,
`timestamp`. -/
structure Payload where
  value_mmol_l : ℚ
  value_mg_dl : ℤ
  trend : String
  timestamp : ℤ
deriving Repr, DecidableEq

/-- Payload construction from a reading (src/server.py lines 154-159). -/
def payloadOf (m : Reading) : Payload :=
  { value_mmol_l := m.value
    value_mg_dl := mmol_to_mgdl m.value
    trend := m.trend
    timestamp := m.timestamp }

/-- Server configuration (src/server.py lines 18-26): `configured` is the
truthiness of both `LIBRE_EMAIL` and `LIBRE_PASSWORD`; the three durations
are `CACHE_TTL_SEC`, `MIN_FETCH_INTERVAL_SEC`, `BACKOFF_AFTER_429_SEC` in
seconds. -/
structure Config where
  configured : Bool
  CACHE_TTL_SEC : ℤ
  MIN_FETCH_INTERVAL_SEC : ℤ
  BACKOFF_AFTER_429_SEC : ℤ
deriving Repr, DecidableEq

/-- The default env configuration: TTL 120 s, minimum fetch interval 70 s,
backoff after 429 240 s, credentials present. -/
def defaultConfig : Config :=
  { configured := true
    CACHE_TTL_SEC := 120
    MIN_FETCH_INTERVAL_SEC := 70
    BACKOFF_AFTER_429_SEC := 240 }

/-- The mutable module-level state (src/server.py lines 42-44):
`_latest_cache` is `(cached_at, payload)` or `None`, `_last_fetch_at` and
`_next_allowed_fetch_at` are instants or `None`. A tuple and a `datetime` are
always truthy in Python, so `if _latest_cache:` tests only for `None`. -/
structure ServerState where
  latest_cache : Option (ℤ × Payload)
  last_fetch_at : Option ℤ
  next_allowed_fetch_at : Option ℤ
deriving Repr, DecidableEq

/-- Initial state: all three module globals are `None`. -/
def initialState : ServerState := ⟨none, none, none⟩

/-- Oracle for how the upstream interaction inside the try-block of `latest`
ends on a given call: a successful reading, the `HTTPException(404)` raised
by `_get_patient` when the account shares no patients, an
`LLUAPIRateLimitError`, or any other exception (network, auth, transient). -/
inductive Upstream where
  | success (m : Reading)
  | noPatients
  | rateLimit
  | otherError
deriving Repr, DecidableEq

/-- The value a call to `latest` produces: a plain payload (no annotation), a
stale payload with a `throttled_until` marker, a stale payload with a
`backoff_until` marker, a stale payload with no marker, or a raised
`HTTPException`. -/
inductive LatestResult where
  | plain (p : Payload)
  | staleThrottled (p : Payload) (deadline : ℤ)
  | staleBackoff (p : Payload) (deadline : ℤ)
  | staleOnly (p : Payload)
  | httpError (code : ℕ) (msg : String)
deriving Repr, DecidableEq

/-- Outcome of one call to `latest`: the produced result, the state of the
module globals afterwards, and whether the call reached the fetch step (an
upstream interaction was attempted). -/
structure StepOut where
  result : LatestResult
  state : ServerState
  fetched : Bool
deriving Repr, DecidableEq

/-- Step 3 of `latest` (src/server.py lines 149-178): the fetch attempt and
its two exception handlers. `noPatients` is caught by the bare
`except Exception` handler, exactly like `otherError`, because FastAPI's
`HTTPException` is an `Exception` subclass. -/
def latestFetch (cfg : Config) (s : ServerState) (now : ℤ) (up : Upstream) : StepOut :=
  match up with
  | .success m =>
      let payload := payloadOf m
      { result := .plain payload
        state := { latest_cache := some (now, payload)
                   last_fetch_at := some now
                   next_allowed_fetch_at := some (now + cfg.MIN_FETCH_INTERVAL_SEC) }
        fetched := true }
  | .rateLimit =>
      let deadline := now + cfg.BACKOFF_AFTER_429_SEC
      match s.latest_cache with
      | some (_, payload) =>
          { result := .staleBackoff payload deadline
            state := { s with next_allowed_fetch_at := some deadline }
            fetched := true }
      | none =>
          { result := .httpError 429 "Rate limited by LLU; try later"
            state := { s with next_allowed_fetch_at := some deadline }
            fetched := true }
  | .noPatients | .otherError =>
      match s.latest_cache with
      | some (_, payload) =>
          { result := .staleOnly payload, state := s, fetched := true }
      | none =>
          { result := .httpError 503 "Upstream temporarily unavailable"
            state := s, fetched := true }

/-- Soft-throttle check of `latest` (src/server.py lines 143-147): if a prior
fetch is more recent than `MIN_FETCH_INTERVAL_SEC` and a cache entry exists,
return it with a bare `stale` mark; with no cache entry the code falls
through to the fetch. -/
def latestSoft (cfg : Config) (s : ServerState) (now : ℤ) (up : Upstream) : StepOut :=
  match s.last_fetch_at, s.latest_cache with
  | some lf, some (_, payload) =>
      if now - lf < cfg.MIN_FETCH_INTERVAL_SEC then
        { result := .staleOnly payload, state := s, fetched := false }
      else latestFetch cfg s now up
  | _, _ => latestFetch cfg s now up

/-- Hard-throttle check of `latest` (src/server.py lines 136-141): if
`_next_allowed_fetch_at` is set and `now` is before it, return the cache with
`stale` and `throttled_until`, or raise 429 when there is no cache. -/
def latestAfterCache (cfg : Config) (s : ServerState) (now : ℤ) (up : Upstream) : StepOut :=
  match s.next_allowed_fetch_at with
  | some na =>
      if now < na then
        match s.latest_cache with
        | some (_, payload) =>
            { result := .staleThrottled payload na, state := s, fetched := false }
        | none =>
            { result := .httpError 429 "Throttled; try later"
              state := s, fetched := false }
      else latestSoft cfg s now up
  | none => latestSoft cfg s now up

/-- Endpoint handler `latest` (src/server.py lines 122-178), as a transition
on the module-global state: configuration check, fresh-cache check, hard
throttle, soft throttle, fetch. -/
def latestStep (cfg : Config) (s : ServerState) (now : ℤ) (up : Upstream) : StepOut :=
  if cfg.configured = false then
    { result := .httpError 500 "Server not configured: missing LIBRE_EMAIL / LIBRE_PASSWORD"
      state := s, fetched := false }
  else
    match s.latest_cache with
    | some (cached_at, payload) =>
        if now - cached_at ≤ cfg.CACHE_TTL_SEC then
          { result := .plain payload, state := s, fetched := false }
        else latestAfterCache cfg s now up
    | none => latestAfterCache cfg s now up

example :
    latestStep defaultConfig initialState 0 (.success ⟨11/2, "Stable", 100⟩) =
      { result := .plain ⟨11/2, 99, "Stable", 100⟩
        state := ⟨some (0, ⟨11/2, 99, "Stable", 100⟩), some 0, some 70⟩
        fetched := true } := by
  simp [latestStep, latestAfterCache, latestSoft, latestFetch, initialState,
    defaultConfig, payloadOf, mmol_to_mgdl, pyRound]
  norm_num

/-- Sequential execution of several calls to `latest`: each call is a pair
(time of the call, upstream oracle for that call); the state produced by one
call is the state seen by the next. -/
def runLatest (cfg : Config) : ServerState → List (ℤ × Upstream) → List StepOut
  | _, [] => []
  | s, (t, up) :: rest =>
      let out := latestStep cfg s t up
      out :: runLatest cfg out.state rest

/-- Python truthiness of an optional environment string: `None` and the
empty string are falsy. -/
def pyTruthy (s : Option String) : Bool :=
  match s with
  | none => false
  | some v => !(v == "")

/-- The token a request to an `/events` endpoint presents (src/server.py
lines 68-72): the trimmed remainder of a `Bearer `-prefixed `Authorization`
header (`key.split(" ", 1)[1].strip()`, which for a string starting with
`Bearer ` is the part after the first 7 characters, stripped), else the
`key` query parameter (which may be absent). The header defaults to the
empty string when absent. -/
def presented_token (authorization : String) (query_key : Option String) : Option String :=
  if authorization.startsWith ("Bearer ") then some (authorization.drop 7).trim
  else query_key

/-- Function `require_key` (src/server.py lines 67-74): raises
`HTTPException(401, ...)`, here `some (401, msg)`, when `API_KEY` is falsy or
the presented token differs from it; otherwise passes (`none`). -/
def require_key (api_key : Option String) (authorization : String)
    (query_key : Option String) : Option (ℕ × String) :=
  if pyTruthy api_key = false ∨ presented_token authorization query_key ≠ api_key then
    some (401, "Unauthorized: set EVENTS_API_KEY and include key")
  else none

/-- Function `_downsample_stride` (src/server.py lines 100-103). -/
def downsample_stride (n target : ℕ) : ℕ :=
  if n ≤ target then 1
  else max 1 (n / target)

/-- Python list slicing `l[::k]` for `k ≥ 1`: keep the elements at indices
`0, k, 2k, ...` in order. -/
def sliceEvery {α : Type} : List α → ℕ → List α
  | [], _ => []
  | a :: l, k => a :: sliceEvery (l.drop (k - 1)) k
termination_by l _ => l.length
decreasing_by
  simp only [List.length_drop, List.length_cons]
  omega

/-- The window-building part of the `history` endpoint (src/server.py lines
188-196): filter the series to `timestamp >= now - hours` (as a timedelta in
hours), sort ascending by timestamp (Python `list.sort` is a stable merge
sort), then, when the stride exceeds 1, keep every stride-th point
(`pts[::stride]`). -/
def build_window (series : List Reading) (now : ℤ) (hours : ℤ)
    (maxPoints : ℕ) : List Reading :=
  let cutoff := now - hours * 3600
  let pts := series.filter (fun p => cutoff ≤ p.timestamp)
  let sorted := pts.mergeSort (fun a b => a.timestamp ≤ b.timestamp)
  let stride := downsample_stride sorted.length maxPoints
  if 1 < stride then sliceEvery sorted stride else sorted

/-- The filtered and sorted point list of `history` (src/server.py lines
190-192), named so the theorems can speak about the intermediate list. -/
def windowSorted (series : List Reading) (now : ℤ) (hours : ℤ) : List Reading :=
  (series.filter (fun p => now - hours * 3600 ≤ p.timestamp)).mergeSort
    (fun a b => a.timestamp ≤ b.timestamp)

lemma build_window_eq_windowSorted (series : List Reading) (now hours : ℤ)
    (maxPoints : ℕ) :
    build_window series now hours maxPoints =
      (if 1 < downsample_stride (windowSorted series now hours).length maxPoints then
        sliceEvery (windowSorted series now hours)
          (downsample_stride (windowSorted series now hours).length maxPoints)
      else windowSorted series now hours) := rfl

/-- Predicate for C5: the payload is the one in the cache and the cache entry
is within `CACHE_TTL_SEC` of `now`. -/
def isFreshCacheHit (cfg : Config) (s : ServerState) (now : ℤ) (p : Payload) : Prop :=
  match s.latest_cache with
  | some (ca, q) => p = q ∧ now - ca ≤ cfg.CACHE_TTL_SEC
  | none => False

/-- Predicate for C5: the payload is built from the reading the upstream
oracle returned on this very call. -/
def isFreshFetchOf (up : Upstream) (p : Payload) : Prop :=
  match up with
  | .success m => p = payloadOf m
  | _ => False

/-- Every call either attempts no upstream interaction and leaves the state
unchanged, or is decided by the fetch step `latestFetch`. -/
lemma latestStep_shape (cfg : Config) (s : ServerState) (now : ℤ) (up : Upstream) :
    ((latestStep cfg s now up).fetched = false ∧ (latestStep cfg s now up).state = s) ∨
    latestStep cfg s now up = latestFetch cfg s now up := by
  unfold latestStep latestAfterCache latestSoft
  repeat' split
  all_goals first
    | exact Or.inl ⟨rfl, rfl⟩
    | exact Or.inr rfl

lemma latestFetch_fetched (cfg : Config) (s : ServerState) (now : ℤ) (up : Upstream) :
    (latestFetch cfg s now up).fetched = true := by
  unfold latestFetch
  repeat' split
  all_goals rfl

/-- A call that reached the fetch step behaves exactly as `latestFetch`. -/
lemma latestStep_fetched (cfg : Config) (s : ServerState) (now : ℤ) (up : Upstream)
    (h : (latestStep cfg s now up).fetched = true) :
    latestStep cfg s now up = latestFetch cfg s now up := by
  rcases latestStep_shape cfg s now up with ⟨hf, _⟩ | he
  · rw [hf] at h; exact absurd h (by simp)
  · exact he

lemma latestStep_fetched_configured (cfg : Config) (s : ServerState) (now : ℤ)
    (up : Upstream) (h : (latestStep cfg s now up).fetched = true) :
    cfg.configured = true := by
  by_contra hx
  rw [Bool.not_eq_true] at hx
  simp [latestStep, hx] at h

/-- A call that reached the fetch step found any existing cache entry older
than the TTL. -/
lemma latestStep_fetched_stale (cfg : Config) (s : ServerState) (now : ℤ)
    (up : Upstream) (ca : ℤ) (p : Payload)
    (hc : s.latest_cache = some (ca, p))
    (h : (latestStep cfg s now up).fetched = true) :
    cfg.CACHE_TTL_SEC < now - ca := by
  by_contra hx
  push_neg at hx
  have hcfg := latestStep_fetched_configured cfg s now up h
  simp [latestStep, hcfg, hc, hx] at h

/-- A call that reached the fetch step found any set `next_allowed_fetch_at`
already elapsed. -/
lemma latestStep_fetched_allowed (cfg : Config) (s : ServerState) (now : ℤ)
    (up : Upstream) (na : ℤ)
    (hna : s.next_allowed_fetch_at = some na)
    (h : (latestStep cfg s now up).fetched = true) :
    na ≤ now := by
  by_contra hx
  push_neg at hx
  have hcfg := latestStep_fetched_configured cfg s now up h
  rcases hc : s.latest_cache with _ | ⟨ca, p⟩
  · simp [latestStep, latestAfterCache, hcfg, hc, hna, hx] at h
  · by_cases hfresh : now - ca ≤ cfg.CACHE_TTL_SEC
    · simp [latestStep, hcfg, hc, hfresh] at h
    · simp [latestStep, latestAfterCache, hcfg, hc, hfresh, hna, hx] at h

/-- Claim C1: a call to `latest` within `CACHE_TTL_SEC` of the cache entry
returns exactly the cached payload (a plain payload, so with no stale flag
and no `throttled_until` or `backoff_until` marker), attempts no upstream
interaction, and leaves the cache and throttle state unchanged. -/
theorem C1_fresh_cache_hit (cfg : Config) (s : ServerState) (now : ℤ)
    (up : Upstream) (cached_at : ℤ) (payload : Payload)
    (hcfg : cfg.configured = true)
    (hc : s.latest_cache = some (cached_at, payload))
    (hfresh : now - cached_at ≤ cfg.CACHE_TTL_SEC) :
    latestStep cfg s now up =
      { result := .plain payload, state := s, fetched := false } := by
  simp [latestStep, hcfg, hc, hfresh]

/-- Witness for C1 at a concrete fresh-cache state. -/
theorem C1_fresh_cache_hit_witness :
    latestStep defaultConfig ⟨some (0, ⟨5, 90, "Stable", 0⟩), some 0, some 70⟩ 60 .otherError =
      { result := .plain ⟨5, 90, "Stable", 0⟩
        state := ⟨some (0, ⟨5, 90, "Stable", 0⟩), some 0, some 70⟩
        fetched := false } :=
  C1_fresh_cache_hit defaultConfig ⟨some (0, ⟨5, 90, "Stable", 0⟩), some 0, some 70⟩
    60 .otherError 0 ⟨5, 90, "Stable", 0⟩ rfl rfl (by decide)

/-- Claim C3: a call that reaches the fetch step and succeeds with reading
`m` returns the payload built from `m` (value, mg/dL conversion, trend name,
timestamp) with no stale mark, replaces the cache entry by `(now, payload)`,
and sets `last_fetch_at := now` and `next_allowed_fetch_at := now +
MIN_FETCH_INTERVAL_SEC`. -/
theorem C3_fetch_success (cfg : Config) (s : ServerState) (now : ℤ) (m : Reading)
    (h : (latestStep cfg s now (.success m)).fetched = true) :
    latestStep cfg s now (.success m) =
      { result := .plain ⟨m.value, mmol_to_mgdl m.value, m.trend, m.timestamp⟩
        state := { latest_cache := some (now, ⟨m.value, mmol_to_mgdl m.value, m.trend, m.timestamp⟩)
                   last_fetch_at := some now
                   next_allowed_fetch_at := some (now + cfg.MIN_FETCH_INTERVAL_SEC) }
        fetched := true } := by
  rw [latestStep_fetched cfg s now (.success m) h]
  rfl

/-- Witness for C3 at the initial state. -/
theorem C3_fetch_success_witness :
    latestStep defaultConfig initialState 0 (.success ⟨5, "Stable", 100⟩) =
      { result := .plain ⟨5, mmol_to_mgdl 5, "Stable", 100⟩
        state := { latest_cache := some (0, ⟨5, mmol_to_mgdl 5, "Stable", 100⟩)
                   last_fetch_at := some 0
                   next_allowed_fetch_at := some (0 + 70) }
        fetched := true } :=
  C3_fetch_success defaultConfig initialState 0 ⟨5, "Stable", 100⟩ rfl

/-- Claim C4: a call whose fetch is answered by an upstream rate-limit
signal sets `next_allowed_fetch_at := now + BACKOFF_AFTER_429_SEC`, keeps
the cache entry and `last_fetch_at` untouched, and returns the cached
payload with `stale` and `backoff_until = next_allowed_fetch_at` when a
cache entry exists, else raises 429. -/
theorem C4_rate_limit_backoff (cfg : Config) (s : ServerState) (now : ℤ)
    (h : (latestStep cfg s now .rateLimit).fetched = true) :
    (latestStep cfg s now .rateLimit).state.next_allowed_fetch_at =
        some (now + cfg.BACKOFF_AFTER_429_SEC) ∧
    (latestStep cfg s now .rateLimit).state.latest_cache = s.latest_cache ∧
    (latestStep cfg s now .rateLimit).state.last_fetch_at = s.last_fetch_at ∧
    (latestStep cfg s now .rateLimit).result =
      (match s.latest_cache with
       | some (_, p) => .staleBackoff p (now + cfg.BACKOFF_AFTER_429_SEC)
       | none => .httpError 429 "Rate limited by LLU; try later") := by
  rw [latestStep_fetched cfg s now .rateLimit h]
  unfold latestFetch
  rcases s.latest_cache with _ | ⟨ca, p⟩ <;> simp

/-- Witness for C4 at a concrete state with a stale cache entry. -/
theorem C4_rate_limit_backoff_witness :
    (latestStep defaultConfig ⟨some (0, ⟨5, 90, "Stable", 0⟩), some 0, some 70⟩ 200
        .rateLimit).state.next_allowed_fetch_at = some (200 + 240) ∧
    (latestStep defaultConfig ⟨some (0, ⟨5, 90, "Stable", 0⟩), some 0, some 70⟩ 200
        .rateLimit).state.latest_cache = some (0, ⟨5, 90, "Stable", 0⟩) ∧
    (latestStep defaultConfig ⟨some (0, ⟨5, 90, "Stable", 0⟩), some 0, some 70⟩ 200
        .rateLimit).state.last_fetch_at = some 0 ∧
    (latestStep defaultConfig ⟨some (0, ⟨5, 90, "Stable", 0⟩), some 0, some 70⟩ 200
        .rateLimit).result = .staleBackoff ⟨5, 90, "Stable", 0⟩ (200 + 240) :=
  C4_rate_limit_backoff defaultConfig ⟨some (0, ⟨5, 90, "Stable", 0⟩), some 0, some 70⟩
    200 rfl

/-- Claim C6: a call whose fetch fails with any non-rate-limit error (the
generic `except Exception` handler) leaves the cache entry, `last_fetch_at`
and `next_allowed_fetch_at` all unchanged, and returns the cached payload
with a bare `stale` mark (no deadline marker) when a cache entry exists,
else raises 503. -/
theorem C6_other_failure (cfg : Config) (s : ServerState) (now : ℤ) (up : Upstream)
    (hup : up = .noPatients ∨ up = .otherError)
    (h : (latestStep cfg s now up).fetched = true) :
    (latestStep cfg s now up).state = s ∧
    (latestStep cfg s now up).result =
      (match s.latest_cache with
       | some (_, p) => .staleOnly p
       | none => .httpError 503 "Upstream temporarily unavailable") := by
  rw [latestStep_fetched cfg s now up h]
  unfold latestFetch
  rcases hup with rfl | rfl <;> rcases s.latest_cache with _ | ⟨ca, p⟩ <;> simp

/-- Witness for C6 at a concrete state with a stale cache entry. -/
theorem C6_other_failure_witness :
    (latestStep defaultConfig ⟨some (0, ⟨5, 90, "Stable", 0⟩), some 0, some 70⟩ 200
        .otherError).state = ⟨some (0, ⟨5, 90, "Stable", 0⟩), some 0, some 70⟩ ∧
    (latestStep defaultConfig ⟨some (0, ⟨5, 90, "Stable", 0⟩), some 0, some 70⟩ 200
        .otherError).result = .staleOnly ⟨5, 90, "Stable", 0⟩ :=
  C6_other_failure defaultConfig ⟨some (0, ⟨5, 90, "Stable", 0⟩), some 0, some 70⟩
    200 .otherError (Or.inr rfl) rfl

/-- Counterexample to claim C7: on a cold start whose fetch step finds no
shared patients, `latest` raises 503 (the `HTTPException(404)` from
`_get_patient` is caught by the bare `except Exception` handler), not 404. -/
theorem C7_counterexample :
    latestStep defaultConfig initialState 0 .noPatients =
      { result := .httpError 503 "Upstream temporarily unavailable"
        state := initialState
        fetched := true } ∧
    (latestStep defaultConfig initialState 0 .noPatients).result ≠
      .httpError 404 "No shared patients on this account." := by
  exact ⟨rfl, by decide⟩

/-- Claim C7 as amended: when the fetch step of `latest` finds that the
account shares no patients, the internally raised 404 is swallowed by the
generic failure handler, so the call returns the cached payload with a bare
`stale` mark when a cache entry exists and otherwise raises 503; the state
is unchanged. -/
theorem C7_no_patients_swallowed (cfg : Config) (s : ServerState) (now : ℤ)
    (h : (latestStep cfg s now .noPatients).fetched = true) :
    (latestStep cfg s now .noPatients).state = s ∧
    (latestStep cfg s now .noPatients).result =
      (match s.latest_cache with
       | some (_, p) => .staleOnly p
       | none => .httpError 503 "Upstream temporarily unavailable") := by
  rw [latestStep_fetched cfg s now .noPatients h]
  unfold latestFetch
  rcases s.latest_cache with _ | ⟨ca, p⟩ <;> simp

/-- Witness for the amended C7 on a cold start. -/
theorem C7_no_patients_swallowed_witness :
    (latestStep defaultConfig initialState 0 .noPatients).state = initialState ∧
    (latestStep defaultConfig initialState 0 .noPatients).result =
      .httpError 503 "Upstream temporarily unavailable" :=
  C7_no_patients_swallowed defaultConfig initialState 0 rfl

/-- Claim C9: a request to an `/events` endpoint passes `require_key`
exactly when a nonempty secret is configured and the presented token equals
it; with no configured secret every request is rejected 401, whatever
credential it presents. -/
theorem C9_events_auth (api_key : Option String) (authorization : String)
    (query_key : Option String) :
    require_key api_key authorization query_key =
      (if pyTruthy api_key = true ∧ presented_token authorization query_key = api_key
       then none
       else some (401, "Unauthorized: set EVENTS_API_KEY and include key")) := by
  unfold require_key
  by_cases h1 : pyTruthy api_key = true <;>
    by_cases h2 : presented_token authorization query_key = api_key <;>
      simp [h1, h2]

/-- Claim C5: any plain (unannotated) payload served by `latest` is either
the cache entry within `CACHE_TTL_SEC` of its `cached_at`, or the payload
freshly fetched by this very call; a payload older than the TTL is never
served without a stale annotation. -/
theorem C5_never_silently_stale (cfg : Config) (s : ServerState) (now : ℤ)
    (up : Upstream) (p : Payload)
    (h : (latestStep cfg s now up).result = .plain p) :
    isFreshCacheHit cfg s now p ∨
    ((latestStep cfg s now up).fetched = true ∧ isFreshFetchOf up p) := by
  revert h
  unfold latestStep latestAfterCache latestSoft latestFetch isFreshCacheHit isFreshFetchOf
  repeat' split
  all_goals intro h
  all_goals simp_all

/-- Witness for C5: a freshly fetched payload on a cold start. -/
theorem C5_never_silently_stale_witness :
    isFreshCacheHit defaultConfig initialState 0 (payloadOf ⟨5, "Stable", 100⟩) ∨
    ((latestStep defaultConfig initialState 0 (.success ⟨5, "Stable", 100⟩)).fetched = true ∧
      isFreshFetchOf (.success ⟨5, "Stable", 100⟩) (payloadOf ⟨5, "Stable", 100⟩)) :=
  C5_never_silently_stale defaultConfig initialState 0 (.success ⟨5, "Stable", 100⟩)
    (payloadOf ⟨5, "Stable", 100⟩) rfl

/-- Inside an active hard-throttle window, with a cache entry older than the
TTL, a call returns the cached payload with the throttle deadline, attempts
no upstream interaction and changes nothing. -/
lemma latestStep_throttled (cfg : Config) (s : ServerState) (now : ℤ)
    (up : Upstream) (ca : ℤ) (p : Payload) (na : ℤ)
    (hcfg : cfg.configured = true)
    (hc : s.latest_cache = some (ca, p))
    (hstale : cfg.CACHE_TTL_SEC < now - ca)
    (hna : s.next_allowed_fetch_at = some na)
    (hnow : now < na) :
    latestStep cfg s now up =
      { result := .staleThrottled p na, state := s, fetched := false } := by
  simp [latestStep, latestAfterCache, hcfg, hc, hna, hnow, not_le.mpr hstale]

/-- Runs of calls that all fall in an active hard-throttle window with a
stale cache entry: every call returns the same throttled stale payload and
the state never moves. -/
lemma runLatest_throttled (cfg : Config) (s2 : ServerState) (ca : ℤ) (p : Payload)
    (na : ℤ) (hcfg : cfg.configured = true)
    (hc : s2.latest_cache = some (ca, p))
    (hna : s2.next_allowed_fetch_at = some na) :
    ∀ calls : List (ℤ × Upstream),
      (∀ c ∈ calls, cfg.CACHE_TTL_SEC < c.1 - ca ∧ c.1 < na) →
      runLatest cfg s2 calls =
        calls.map (fun _ => ⟨.staleThrottled p na, s2, false⟩)
  | [], _ => by simp [runLatest]
  | (now, up) :: rest, hwin => by
      have h1 := hwin (now, up) (by simp)
      have hstep := latestStep_throttled cfg s2 now up ca p na hcfg hc h1.1 hna h1.2
      simp only [runLatest, hstep, List.map_cons, List.cons.injEq]
      exact ⟨trivial, runLatest_throttled cfg s2 ca p na hcfg hc hna rest
        (fun c hcm => hwin c (by simp [hcm]))⟩

/-- Claim C2: after a call whose fetch is rate-limited at time `t` while a
cache entry exists, every subsequent call strictly before
`t + BACKOFF_AFTER_429_SEC` returns that cached payload with `stale` and the
throttle deadline, no call in the window attempts an upstream interaction,
and the state stays at the post-rate-limit state throughout the window. -/
theorem C2_backoff_window (cfg : Config) (s : ServerState) (t : ℤ) (ca : ℤ)
    (p : Payload)
    (hc : s.latest_cache = some (ca, p))
    (hfetch : (latestStep cfg s t .rateLimit).fetched = true)
    (calls : List (ℤ × Upstream))
    (hwin : ∀ c ∈ calls, t ≤ c.1 ∧ c.1 < t + cfg.BACKOFF_AFTER_429_SEC) :
    runLatest cfg (latestStep cfg s t .rateLimit).state calls =
      calls.map (fun _ =>
        { result := .staleThrottled p (t + cfg.BACKOFF_AFTER_429_SEC)
          state := (latestStep cfg s t .rateLimit).state
          fetched := false }) := by
  have hcfg := latestStep_fetched_configured cfg s t .rateLimit hfetch
  have hstale := latestStep_fetched_stale cfg s t .rateLimit ca p hc hfetch
  have heq := latestStep_fetched cfg s t .rateLimit hfetch
  have hstate : (latestStep cfg s t .rateLimit).state =
      { s with next_allowed_fetch_at := some (t + cfg.BACKOFF_AFTER_429_SEC) } := by
    rw [heq]; simp [latestFetch, hc]
  rw [hstate]
  exact runLatest_throttled cfg _ ca p (t + cfg.BACKOFF_AFTER_429_SEC) hcfg
    (by simp [hc]) (by simp) calls
    (fun c hcm => ⟨by have := (hwin c hcm).1; omega, (hwin c hcm).2⟩)

/-- Witness for C2: a rate-limited fetch at t = 200 followed by two calls in
the backoff window. -/
theorem C2_backoff_window_witness :
    runLatest defaultConfig
        (latestStep defaultConfig ⟨some (0, ⟨5, 90, "Stable", 0⟩), some 0, some 70⟩ 200
          .rateLimit).state
        [(250, .otherError), (430, .rateLimit)] =
      [{ result := .staleThrottled ⟨5, 90, "Stable", 0⟩ (200 + 240)
         state := (latestStep defaultConfig
           ⟨some (0, ⟨5, 90, "Stable", 0⟩), some 0, some 70⟩ 200 .rateLimit).state
         fetched := false },
       { result := .staleThrottled ⟨5, 90, "Stable", 0⟩ (200 + 240)
         state := (latestStep defaultConfig
           ⟨some (0, ⟨5, 90, "Stable", 0⟩), some 0, some 70⟩ 200 .rateLimit).state
         fetched := false }] :=
  C2_backoff_window defaultConfig ⟨some (0, ⟨5, 90, "Stable", 0⟩), some 0, some 70⟩
    200 0 ⟨5, 90, "Stable", 0⟩ rfl rfl [(250, .otherError), (430, .rateLimit)]
    (by decide)

lemma sliceEvery_sublist {α : Type} (l : List α) (k : ℕ) :
    (sliceEvery l k).Sublist l := by
  induction l, k using sliceEvery.induct with
  | case1 k => simp [sliceEvery]
  | case2 a l k ih =>
      rw [sliceEvery]
      exact (ih.trans (List.drop_sublist _ _)).cons₂ a

lemma sliceEvery_one {α : Type} (l : List α) : sliceEvery l 1 = l := by
  induction l with
  | nil => rw [sliceEvery]
  | cons a l ih => rw [sliceEvery]; simpa using ih

/-- Number of kept elements of Python slicing `l[::k]`: the ceiling of
`l.length / k`. -/
lemma sliceEvery_length {α : Type} (l : List α) (k : ℕ) :
    1 ≤ k → (sliceEvery l k).length = (l.length + k - 1) / k := by
  induction l, k using sliceEvery.induct with
  | case1 k =>
      intro hk
      simp [sliceEvery, Nat.div_eq_of_lt (show k - 1 < k by omega)]
  | case2 a l k ih =>
      intro hk
      rw [sliceEvery]
      simp only [List.length_cons]
      rw [ih hk, List.length_drop]
      have hr : l.length + 1 + k - 1 = l.length + k := by omega
      rw [hr, Nat.add_div_right _ (show 0 < k by omega)]
      by_cases hcase : k - 1 ≤ l.length
      · have h1 : l.length - (k - 1) + k - 1 = l.length := by omega
        rw [h1]
      · have h1 : l.length - (k - 1) + k - 1 = k - 1 := by omega
        rw [h1, Nat.div_eq_of_lt (show k - 1 < k by omega),
          Nat.div_eq_of_lt (show l.length < k by omega)]

/-- The filtered and sorted point list is sorted ascending by timestamp. -/
lemma windowSorted_pairwise (series : List Reading) (now hours : ℤ) :
    (windowSorted series now hours).Pairwise
      (fun a b => a.timestamp ≤ b.timestamp) := by
  have h := @List.sorted_mergeSort Reading
    (fun a b => decide (a.timestamp ≤ b.timestamp))
    (fun a b c hab hbc => by
      simp only [decide_eq_true_eq] at hab hbc ⊢; omega)
    (fun a b => by
      rcases Int.le_total a.timestamp b.timestamp with h | h <;> simp [h])
    (series.filter (fun p => now - hours * 3600 ≤ p.timestamp))
  exact h.imp (fun hab => of_decide_eq_true hab)

/-- Claim C8: the history window builder returns the readings in the window
sorted ascending by timestamp; with `n` the filtered count, when
`n ≤ max_points` the output is exactly the sorted filtered list, otherwise
it keeps every stride-th element with `stride = max 1 (n / max_points)`;
the output length never exceeds ceil(n / stride). -/
theorem C8_history_window (series : List Reading) (now hours : ℤ) (maxPoints : ℕ)
    (hmp : 0 < maxPoints) :
    ((windowSorted series now hours).length ≤ maxPoints →
        build_window series now hours maxPoints = windowSorted series now hours) ∧
    (maxPoints < (windowSorted series now hours).length →
        build_window series now hours maxPoints =
          sliceEvery (windowSorted series now hours)
            (max 1 ((windowSorted series now hours).length / maxPoints))) ∧
    (build_window series now hours maxPoints).Pairwise
      (fun a b => a.timestamp ≤ b.timestamp) ∧
    (build_window series now hours maxPoints).length ≤
      ((windowSorted series now hours).length +
          max 1 ((windowSorted series now hours).length / maxPoints) - 1) /
        max 1 ((windowSorted series now hours).length / maxPoints) := by
  have hstride1 : (windowSorted series now hours).length ≤ maxPoints →
      max 1 ((windowSorted series now hours).length / maxPoints) = 1 := by
    intro h
    have h2 := Nat.div_le_div_right (c := maxPoints) h
    rw [Nat.div_self hmp] at h2
    omega
  have hmaster : build_window series now hours maxPoints =
      sliceEvery (windowSorted series now hours)
        (max 1 ((windowSorted series now hours).length / maxPoints)) := by
    rw [build_window_eq_windowSorted]
    unfold downsample_stride
    by_cases h : (windowSorted series now hours).length ≤ maxPoints
    · rw [hstride1 h, sliceEvery_one]
      simp [h]
    · simp only [if_neg h]
      by_cases h2 : 1 < max 1 ((windowSorted series now hours).length / maxPoints)
      · simp [h2]
      · have h3 : max 1 ((windowSorted series now hours).length / maxPoints) = 1 := by
          omega
        rw [h3, sliceEvery_one]
        simp [h3]
  refine ⟨?_, ?_, ?_, ?_⟩
  · intro h
    rw [hmaster, hstride1 h, sliceEvery_one]
  · intro _
    exact hmaster
  · rw [hmaster]
    exact List.Pairwise.sublist (sliceEvery_sublist _ _)
      (windowSorted_pairwise series now hours)
  · exact le_of_eq (by rw [hmaster, sliceEvery_length _ _ (le_max_left 1 _)])

/-- Witness for C8 on a concrete five-point series with one point outside
the one-hour window: with a cap of 10 the output is the sorted filtered
list, and with a cap of 1 it is still sorted. -/
theorem C8_history_window_witness :
    build_window
        [⟨5, "Stable", -10000⟩, ⟨4, "Falling", 100⟩, ⟨6, "Rising", 50⟩,
          ⟨7, "Stable", 200⟩, ⟨3, "Stable", 150⟩] 0 1 10 =
      windowSorted
        [⟨5, "Stable", -10000⟩, ⟨4, "Falling", 100⟩, ⟨6, "Rising", 50⟩,
          ⟨7, "Stable", 200⟩, ⟨3, "Stable", 150⟩] 0 1 ∧
    (build_window
        [⟨5, "Stable", -10000⟩, ⟨4, "Falling", 100⟩, ⟨6, "Rising", 50⟩,
          ⟨7, "Stable", 200⟩, ⟨3, "Stable", 150⟩] 0 1 1).Pairwise
      (fun a b => a.timestamp ≤ b.timestamp) :=
  ⟨(C8_history_window
      [⟨5, "Stable", -10000⟩, ⟨4, "Falling", 100⟩, ⟨6, "Rising", 50⟩,
        ⟨7, "Stable", 200⟩, ⟨3, "Stable", 150⟩] 0 1 10 (by decide)).1
      (by rw [windowSorted, List.length_mergeSort]; decide),
   (C8_history_window
      [⟨5, "Stable", -10000⟩, ⟨4, "Falling", 100⟩, ⟨6, "Rising", 50⟩,
        ⟨7, "Stable", 200⟩, ⟨3, "Stable", 150⟩] 0 1 1 (by decide)).2.2.1⟩

/-- Executable invariant on the module globals: when `last_fetch_at` is set,
a cache entry and `next_allowed_fetch_at` are set too, and `last_fetch_at +
MIN_FETCH_INTERVAL_SEC ≤ next_allowed_fetch_at`. -/
def stateInv (cfg : Config) (s : ServerState) : Bool :=
  match s.last_fetch_at with
  | none => true
  | some lf =>
      s.latest_cache.isSome &&
        (match s.next_allowed_fetch_at with
         | none => false
         | some na => decide (lf + cfg.MIN_FETCH_INTERVAL_SEC ≤ na))

/-- States of the module globals reachable from the initial state by calls
to `latest`, with a fixed configuration. -/
inductive Reachable (cfg : Config) : ServerState → Prop
  | init : Reachable cfg initialState
  | step (s : ServerState) (now : ℤ) (up : Upstream) :
      Reachable cfg s → Reachable cfg (latestStep cfg s now up).state

/-- Property for C10: any bare-stale (`staleOnly`) response is produced by
the fetch step under a non-rate-limit upstream failure; in particular the
soft-throttle branch never produces a response. -/
def staleOnlyFromFailure (cfg : Config) (s : ServerState) : Prop :=
  ∀ (now : ℤ) (up : Upstream) (p : Payload),
    (latestStep cfg s now up).result = .staleOnly p →
    (latestStep cfg s now up).fetched = true ∧
      (up = .noPatients ∨ up = .otherError)

lemma stateInv_step (cfg : Config) (s : ServerState) (now : ℤ) (up : Upstream)
    (hB : 0 ≤ cfg.BACKOFF_AFTER_429_SEC)
    (hs : stateInv cfg s = true) :
    stateInv cfg (latestStep cfg s now up).state = true := by
  rcases latestStep_shape cfg s now up with ⟨_, hst⟩ | heq
  · rw [hst]; exact hs
  · have hfet : (latestStep cfg s now up).fetched = true := by
      rw [heq]; exact latestFetch_fetched cfg s now up
    rw [heq]
    cases up with
    | success m => simp [latestFetch, stateInv]
    | rateLimit =>
        have hstate : (latestFetch cfg s now .rateLimit).state =
            { s with next_allowed_fetch_at := some (now + cfg.BACKOFF_AFTER_429_SEC) } := by
          unfold latestFetch
          rcases s.latest_cache with _ | ⟨ca, p⟩ <;> simp
        rw [hstate]
        unfold stateInv at hs ⊢
        rcases hlf : s.last_fetch_at with _ | lf
        · simp
        · rw [hlf] at hs
          simp only [Bool.and_eq_true] at hs
          rcases hna : s.next_allowed_fetch_at with _ | na
        -- under the invariant a set last_fetch_at forces a set deadline
          · rw [hna] at hs
            exact absurd hs.2 (by simp)
          · rw [hna] at hs
            have hle := latestStep_fetched_allowed cfg s now .rateLimit na hna hfet
            have hmin : lf + cfg.MIN_FETCH_INTERVAL_SEC ≤ na := by
              simpa using hs.2
            simp only [Bool.and_eq_true]
            refine ⟨by simpa using hs.1, ?_⟩
            simp only [decide_eq_true_eq]
            omega
    | noPatients =>
        have hstate : (latestFetch cfg s now .noPatients).state = s := by
          unfold latestFetch
          rcases s.latest_cache with _ | ⟨ca, p⟩ <;> simp
        rw [hstate]; exact hs
    | otherError =>
        have hstate : (latestFetch cfg s now .otherError).state = s := by
          unfold latestFetch
          rcases s.latest_cache with _ | ⟨ca, p⟩ <;> simp
        rw [hstate]; exact hs

/-- A bare-stale response comes either from the fetch step under a generic
failure, or from the soft-throttle branch, and the latter forces a recent
`last_fetch_at` together with an elapsed (or unset) `next_allowed_fetch_at`. -/
lemma staleOnly_soft_or_failure (cfg : Config) (s : ServerState) (now : ℤ)
    (up : Upstream) (p : Payload)
    (h : (latestStep cfg s now up).result = .staleOnly p) :
    ((latestStep cfg s now up).fetched = true ∧
        (up = .noPatients ∨ up = .otherError)) ∨
    (∃ lf, s.last_fetch_at = some lf ∧
      now - lf < cfg.MIN_FETCH_INTERVAL_SEC ∧
      (∀ na, s.next_allowed_fetch_at = some na → na ≤ now)) := by
  revert h
  unfold latestStep latestAfterCache latestSoft latestFetch
  repeat' split
  all_goals intro h
  all_goals simp_all

/-- Claim C10: in every reachable state, a set `last_fetch_at` implies that
the cache entry and `next_allowed_fetch_at` are set with `last_fetch_at +
MIN_FETCH_INTERVAL_SEC ≤ next_allowed_fetch_at`; consequently the
soft-throttle branch never answers a call, and a stale payload without a
deadline marker can arise only from the non-rate-limit upstream-failure
path. -/
theorem C10_soft_throttle_dead (cfg : Config) (s : ServerState)
    (hB : 0 ≤ cfg.BACKOFF_AFTER_429_SEC)
    (hr : Reachable cfg s) :
    stateInv cfg s = true ∧ staleOnlyFromFailure cfg s := by
  have hinv : stateInv cfg s = true := by
    induction hr with
    | init => rfl
    | step s now up hr ih => exact stateInv_step cfg s now up hB ih
  refine ⟨hinv, ?_⟩
  intro now up p h
  rcases staleOnly_soft_or_failure cfg s now up p h with hok | ⟨lf, hlf, hsoft, hna⟩
  · exact hok
  · exfalso
    unfold stateInv at hinv
    rw [hlf] at hinv
    rcases hna' : s.next_allowed_fetch_at with _ | na
    · rw [hna'] at hinv; simp at hinv
    · rw [hna'] at hinv
      simp only [Bool.and_eq_true, decide_eq_true_eq] at hinv
      have h1 := hna na hna'
      omega

/-- Witness for C10 at the state reached by one successful fetch from the
initial state. -/
theorem C10_soft_throttle_dead_witness :
    stateInv defaultConfig
      (latestStep defaultConfig initialState 0
        (.success ⟨5, "Stable", 100⟩)).state = true :=
  (C10_soft_throttle_dead defaultConfig
    (latestStep defaultConfig initialState 0 (.success ⟨5, "Stable", 100⟩)).state
    (by decide)
    (Reachable.step initialState 0 (.success ⟨5, "Stable", 100⟩) Reachable.init)).1
